import Mathlib

-- Shallow embedding of src/main.rs of the website-status-checker repository.
-- Machine integers (u16, u32, u64, usize) are modelled as Nat: none of the
-- verified properties involve arithmetic anywhere near an overflow boundary
-- (loop counters and durations only grow by small increments).
-- Network, clock and file system are external collaborators and enter as
-- explicit function parameters.

namespace SiteChecker

/-- Raw result of one HTTP probe attempt, as seen by `check_website`:
`client.get(url).timeout(timeout).send()` either returns a response (carrying
a status code, `resp.status().as_u16()`) or a transport-level error whose
`to_string()` rendering is the description. -/
inductive RawAttempt where
  | responded (code : Nat)
  | transportError (desc : String)
deriving DecidableEq

/-- True exactly when the attempt is a transport-level error. -/
def RawAttempt.isErr : RawAttempt → Bool
  | .responded _ => false
  | .transportError _ => true

/-- The error description carried by a transport error (unused for responses). -/
def RawAttempt.desc : RawAttempt → String
  | .responded _ => ""
  | .transportError d => d

/-- The `WebsiteStatus` struct of the source. `action_status : Result<u16, String>`
becomes `Except String Nat`; `response_time : Duration` is modelled in
nanoseconds; `timestamp : DateTime<Utc>` is an abstract instant. -/
structure WebsiteStatus where
  url : String
  action_status : Except String Nat
  response_time : Nat
  timestamp : Nat

/-- The external world a run interacts with: `attempt url timeout k` is the
outcome of the k-th (0-indexed) HTTP GET against `url` with the given timeout,
`attemptDur url k` its wall-clock duration in nanoseconds, and
`finishedAt url` the `Utc::now()` instant observed when the check of `url`
reaches its terminal state. -/
structure HttpEnv where
  attempt : String → Nat → Nat → RawAttempt
  attemptDur : String → Nat → Nat
  finishedAt : String → Nat

/-- State of `check_website`'s retry loop when it finishes: the resulting
`action_status`, the number of probe attempts actually made, and the value of
the `last_err` variable at that point. -/
structure LoopResult where
  action_status : Except String Nat
  attempts : Nat
  lastErr : Option String

/-- The `for _ in 0..=retries` loop of `check_website` (src/main.rs lines
89-108), with `fuel` = number of iterations still allowed and `k` the current
attempt index. On `Ok(resp)` the function returns `Ok(status)` at once; on
`Err(err)` it stores the error in `last_err` and continues; when the loop ends
the result is `Err(format!("Error: {}", last_err ... "unknown error"))`
(lines 110-117). -/
def checkLoop (probe : Nat → RawAttempt) : Nat → Nat → Option String → LoopResult
  | _, 0, lastErr => ⟨.error ("Error: " ++ lastErr.getD "unknown error"), 0, lastErr⟩
  | k, fuel + 1, lastErr =>
    match probe k with
    | .responded code => ⟨.ok code, 1, lastErr⟩
    | .transportError d =>
      let r := checkLoop probe (k + 1) fuel (some d)
      ⟨r.action_status, r.attempts + 1, r.lastErr⟩

/-- `check_website(client, url, timeout, retries)` (src/main.rs lines 82-117):
runs the retry loop starting with `last_err = None` and `retries + 1` allowed
iterations, and packages the result as a `WebsiteStatus`. `response_time` is
the elapsed time from before the first attempt to the terminal state, i.e. the
sum of the durations of the attempts made. -/
def check_website (env : HttpEnv) (url : String) (timeout retries : Nat) : WebsiteStatus :=
  let r := checkLoop (env.attempt url timeout) 0 (retries + 1) none
  { url := url
    action_status := r.action_status
    response_time := ((List.range r.attempts).map (env.attemptDur url)).sum
    timestamp := env.finishedAt url }

/-- Number of probe attempts `check_website` makes for `url`. -/
def attemptsMade (env : HttpEnv) (url : String) (timeout retries : Nat) : Nat :=
  (checkLoop (env.attempt url timeout) 0 (retries + 1) none).attempts

/-- Rust's `(i..n).step_by(step)` iterated with `fuel` remaining iterations:
the ascending indices `j, j+step, j+2*step, ...` that are `< n`. -/
def stepList (step : Nat) : Nat → Nat → Nat → List Nat
  | 0, _, _ => []
  | fuel + 1, j, n => if j < n then j :: stepList step fuel (j + step) n else []

/-- The index set worker `i` iterates: `for j in (i..urls.len()).step_by(workers)`
(src/main.rs line 147). `n` iterations of fuel always suffice because the index
advances by `w ≥ 1` each step. For `w = 0` the Rust iterator panics
(`step_by(0)`), but no worker thread exists in that case, so the value is
irrelevant; the fuel-starved `[]` is as good as any. -/
def workerIndices (i n w : Nat) : List Nat := stepList w n i n

/-- The multiset of records that reach the collector, in one canonical order
(worker 0's records first, each worker's own records in its iteration order).
The real channel interleaves workers arbitrarily, so the actual accumulation
order is some permutation of this list; every claim proved about it is
order-insensitive (length / multiset of urls). `urls.getD j ""` models
`&urls[j]`; the default is never reached since every assigned index is
`< urls.len()`. (src/main.rs lines 138-160) -/
def runStatuses (env : HttpEnv) (urls : List String) (w timeout retries : Nat) :
    List WebsiteStatus :=
  (List.range w).flatMap fun i =>
    (workerIndices i urls.length w).map fun j =>
      check_website env (urls.getD j "") timeout retries

/-- The `Config` struct of the source (usize/u64 fields as Nat). -/
structure Config where
  file : Option String
  urls : List String
  workers : Nat
  timeout_secs : Nat
  retries : Nat
deriving DecidableEq

/-- Rust's `arg.starts_with("--")`, written as a pattern match on the
string's character list (equivalent, and fully evaluable in proofs). -/
def startsWithDashDash (s : String) : Bool :=
  match s.data with
  | '-' :: '-' :: _ => true
  | _ => false

/-- Is this `Except` an error? (`Result::is_err`). -/
def isError {α : Type} : Except String α → Bool
  | .error _ => true
  | .ok _ => false

/-- The message of an error `Except`, if any. -/
def msgOf {α : Type} : Except String α → Option String
  | .error m => some m
  | .ok _ => none

/-- The `while let Some(arg) = args.next()` loop of `parse_args`
(src/main.rs lines 34-58) plus the final emptiness check (lines 60-62) and
`Config` construction. `pn` models `str::parse::<uint>` (`None` = parse error);
`file`, `urls`, `workers`, `timeout`, `retries` are the mutable locals. -/
def parseArgsLoop (pn : String → Option Nat) :
    List String → Option String → List String → Nat → Nat → Nat → Except String Config
  | [], file, urls, workers, timeout, retries =>
    if file.isNone && urls.isEmpty then
      .error "Please specify --file <path> or one or more URLs."
    else
      .ok ⟨file, urls, workers, timeout, retries⟩
  | arg :: rest, file, urls, workers, timeout, retries =>
    if arg = "--file" then
      match rest with
      | [] => .error "Missing value after --file"
      | v :: rest2 => parseArgsLoop pn rest2 (some v) urls workers timeout retries
    else if arg = "--workers" then
      match rest with
      | [] => .error "Missing value after --workers"
      | v :: rest2 =>
        match pn v with
        | some nv => parseArgsLoop pn rest2 file urls nv timeout retries
        | none => .error "Invalid value for --workers"
    else if arg = "--timeout" then
      match rest with
      | [] => .error "Missing value after --timeout"
      | v :: rest2 =>
        match pn v with
        | some tv => parseArgsLoop pn rest2 file urls workers tv retries
        | none => .error "Invalid value for --timeout"
    else if arg = "--retries" then
      match rest with
      | [] => .error "Missing value after --retries"
      | v :: rest2 =>
        match pn v with
        | some rv => parseArgsLoop pn rest2 file urls workers timeout rv
        | none => .error "Invalid value for --retries"
    else if startsWithDashDash arg then
      .error ("Unknown flag: " ++ arg)
    else
      parseArgsLoop pn rest file (urls ++ [arg]) workers timeout retries

/-- `parse_args(args)` (src/main.rs lines 24-71): skips `args[0]` (the program
name), starts from defaults `workers = available_parallelism (dw)`,
`timeout_secs = 5`, `retries = 3`, `file = None`, `urls = []`. -/
def parse_args (pn : String → Option Nat) (dw : Nat) (args : List String) :
    Except String Config :=
  parseArgsLoop pn args.tail none [] dw 5 3

/-- Modelled from the spec (section 7, "Fatal/startup"): scans the argument
tokens and reports `true` exactly when the configuration is malformed in one
of the spec's listed senses - a flag given without a following value, a
numeric flag value that does not parse, an unknown `--` flag, or (at the end)
neither `--file` nor any positional URL seen. `sawFile`/`sawUrl` record
whether a `--file` flag / a positional URL has been consumed so far. This
definition follows the spec's words and is compared against `parse_args`
(the source) in the C8 theorem. -/
def specScanMalformed (pn : String → Option Nat) : List String → Bool → Bool → Bool
  | [], sawFile, sawUrl => !sawFile && !sawUrl
  | arg :: rest, sawFile, sawUrl =>
    if arg = "--file" then
      match rest with
      | [] => true
      | _ :: rest2 => specScanMalformed pn rest2 true sawUrl
    else if arg = "--workers" then
      match rest with
      | [] => true
      | v :: rest2 =>
        if (pn v).isNone then true else specScanMalformed pn rest2 sawFile sawUrl
    else if arg = "--timeout" then
      match rest with
      | [] => true
      | v :: rest2 =>
        if (pn v).isNone then true else specScanMalformed pn rest2 sawFile sawUrl
    else if arg = "--retries" then
      match rest with
      | [] => true
      | v :: rest2 =>
        if (pn v).isNone then true else specScanMalformed pn rest2 sawFile sawUrl
    else if startsWithDashDash arg then true
    else specScanMalformed pn rest sawFile true

/-- Spec-side top level of `specScanMalformed`: the program name is skipped and
nothing has been seen yet. -/
def specMalformedConfig (pn : String → Option Nat) (args : List String) : Bool :=
  specScanMalformed pn args.tail false false

/-- The positional (non-flag) arguments of a token list, in command-line
order: each of the four known flags consumes the following token as its value,
every other `--` token is a flag with no value, and everything else is a URL.
Used to state what `Config.urls` contains after a successful parse. -/
def positionalArgs : List String → List String
  | [] => []
  | arg :: rest =>
    if arg = "--file" ∨ arg = "--workers" ∨ arg = "--timeout" ∨ arg = "--retries" then
      match rest with
      | [] => []
      | _ :: rest2 => positionalArgs rest2
    else if startsWithDashDash arg then positionalArgs rest
    else arg :: positionalArgs rest

/-- The target list `main` checks (src/main.rs lines 126-131): the positional
URLs of the config, followed - when `--file` was given - by the file's URLs in
file order. `readFile` models `read_urls_from_file` (external file system). -/
def mainUrls (readFile : String → List String) (cfg : Config) : List String :=
  match cfg.file with
  | some p => cfg.urls ++ readFile p
  | none => cfg.urls

/-- The main thread's original `tx` is dropped explicitly right after the
spawn loop: `drop(tx)` at src/main.rs line 155. -/
def mainSenderDropped : Bool := true

/-- Each of the `w` spawned workers holds one clone of `tx`. -/
def spawnedSenders (w : Nat) : Nat := w

/-- Every spawned worker drops its sender: its loop iterates the finite list
`workerIndices i n w` and the thread then ends, releasing its clone of `tx`.
So all `w` worker senders are eventually dropped. -/
def droppedWorkerSenders (w : Nat) : Nat := w

/-- Senders of the result channel still alive once the spawn loop has run,
`drop(tx)` has executed and every spawned worker thread has finished. The
collector's `for received in rx` loop terminates exactly when this reaches 0
(channel closed) and the queue is drained. -/
def liveSendersAfterRun (w : Nat) : Nat :=
  (if mainSenderDropped then 0 else 1) + (spawnedSenders w - droppedWorkerSenders w)

/-- The collector (src/main.rs lines 157-160): `none` models the
`for received in rx` loop blocking forever (some sender never released);
otherwise the accumulated records. -/
def collectResults (env : HttpEnv) (urls : List String) (w timeout retries : Nat) :
    Option (List WebsiteStatus) :=
  if liveSendersAfterRun w = 0 then some (runStatuses env urls w timeout retries) else none

/-- The `status` JSON field of one record (src/main.rs line 168):
`status.action_status.as_ref().map_or("unknown error".to_string(), |s| s.to_string())`
- the status code rendered as text when `Ok`, and the literal `map_or`
default `"unknown error"` when `Err` (the stored message is discarded). -/
def statusField (a : Except String Nat) : String :=
  match a with
  | .ok code => toString code
  | .error _ => "unknown error"

/-- One serialized element of status.json (src/main.rs lines 162-172):
`response_time` is `Duration::as_secs`, i.e. nanoseconds truncated to whole
seconds; `rfc` models chrono's `to_rfc3339` rendering of the timestamp. -/
def statusLine (rfc : Nat → String) (s : WebsiteStatus) : String :=
  "\x7b\"url\": \"" ++ s.url ++ "\", \"status\": \"" ++ statusField s.action_status ++
    "\", \"response_time\": \"" ++ toString (s.response_time / 1000000000) ++
    "\", \"timestamp\": \"" ++ rfc s.timestamp ++ "\"\x7d"

/-- The full status.json text (src/main.rs lines 174, join then bracket). -/
def finalOutput (rfc : Nat → String) (statuses : List WebsiteStatus) : String :=
  "[" ++ String.intercalate ",\n" (statuses.map (statusLine rfc)) ++ "]"

/-- The whole run, parse error short-circuiting before any worker is spawned
or any output written (`parse_args(&args).expect(...)` at src/main.rs 124):
`.error e` = startup abort with no output, `.ok none` = collector blocked
forever, `.ok (some rs)` = run completed with records `rs`. -/
def runProgram (pn : String → Option Nat) (dw : Nat) (readFile : String → List String)
    (env : HttpEnv) (args : List String) : Except String (Option (List WebsiteStatus)) :=
  match parse_args pn dw args with
  | .error e => .error e
  | .ok cfg =>
    .ok (collectResults env (mainUrls readFile cfg) cfg.workers cfg.timeout_secs cfg.retries)

-- Concrete probers and environments used by the witness theorems.

/-- A prober that fails on attempts 0 and 1 with "timeout" and responds 200
from attempt 2 on. -/
def probeFlaky : Nat → RawAttempt :=
  fun j => if j < 2 then .transportError "timeout" else .responded 200

/-- A prober that fails every attempt with "connection refused". -/
def probeDead : Nat → RawAttempt :=
  fun _ => .transportError "connection refused"

/-- Environment wrapping `probeFlaky` for every url. -/
def envFlaky : HttpEnv := ⟨fun _ _ => probeFlaky, fun _ _ => 5, fun _ => 0⟩

/-- Environment wrapping `probeDead` for every url. -/
def envDead : HttpEnv := ⟨fun _ _ => probeDead, fun _ _ => 7, fun _ => 0⟩

/-- Environment in which every url responds immediately with `code`. -/
def envOk (code : Nat) : HttpEnv :=
  ⟨fun _ _ _ => .responded code, fun _ _ => 1, fun _ => 0⟩

/-- A timestamp renderer used in closed serialization theorems. -/
def rfcStub : Nat → String := fun _ => "T"

/-- A numeric parser that accepts nothing (no numeric flag appears in the
witness argument lists that use it). -/
def pnNone : String → Option Nat := fun _ => none

/-- Concrete argument list mixing positional URLs and a `--file` flag. -/
def argsMixed : List String :=
  ["prog", "http://a", "--file", "list.txt", "http://b"]

/-- Concrete parsed config for `argsMixed`. -/
def cfgMixed : Config := ⟨some "list.txt", ["http://a", "http://b"], 4, 5, 3⟩

/-- Concrete file contents for the `--file` source. -/
def rfMixed : String → List String := fun _ => ["http://c", "http://d"]

end SiteChecker

namespace SiteChecker

-- Supporting lemmas about the retry loop.

/-- One loop iteration whose attempt fails: recurse with `last_err` updated. -/
lemma checkLoop_succ_err (p : Nat → RawAttempt) (k fuel : Nat) (le : Option String)
    (d : String) (hp : p k = .transportError d) :
    checkLoop p k (fuel + 1) le =
      ⟨(checkLoop p (k + 1) fuel (some d)).action_status,
        (checkLoop p (k + 1) fuel (some d)).attempts + 1,
        (checkLoop p (k + 1) fuel (some d)).lastErr⟩ := by
  simp only [checkLoop, hp]

/-- The loop with no fuel left: the Failure construction. -/
lemma checkLoop_zero (p : Nat → RawAttempt) (k : Nat) (le : Option String) :
    checkLoop p k 0 le = ⟨.error ("Error: " ++ le.getD "unknown error"), 0, le⟩ := rfl

/-- The loop makes at most `fuel` attempts. -/
lemma checkLoop_attempts_le (p : Nat → RawAttempt) :
    ∀ fuel k le, (checkLoop p k fuel le).attempts ≤ fuel := by
  intro fuel
  induction fuel with
  | zero => intro k le; simp [checkLoop]
  | succ f ih =>
    intro k le
    cases hp : p k with
    | responded c => simp [checkLoop, hp]
    | transportError d =>
      simp only [checkLoop, hp]
      exact Nat.succ_le_succ (ih (k + 1) (some d))

/-- If the first `K` attempts (starting at index `k`) fail and attempt `k + K`
responds with `c`, the loop stops at that attempt with `Ok c` after exactly
`K + 1` attempts. -/
lemma checkLoop_success (p : Nat → RawAttempt) :
    ∀ K fuel k le c, K < fuel → (∀ j, j < K → (p (k + j)).isErr = true) →
      p (k + K) = .responded c →
      (checkLoop p k fuel le).action_status = .ok c ∧ (checkLoop p k fuel le).attempts = K + 1 := by
  intro K
  induction K with
  | zero =>
    intro fuel k le c hf _ hK
    obtain ⟨f, rfl⟩ : ∃ f, fuel = f + 1 := ⟨fuel - 1, by omega⟩
    rw [Nat.add_zero] at hK
    simp [checkLoop, hK]
  | succ K ih =>
    intro fuel k le c hf hfail hK
    obtain ⟨f, rfl⟩ : ∃ f, fuel = f + 1 := ⟨fuel - 1, by omega⟩
    have h0 : (p (k + 0)).isErr = true := hfail 0 (by omega)
    rw [Nat.add_zero] at h0
    cases hp : p k with
    | responded c2 => rw [hp] at h0; simp [RawAttempt.isErr] at h0
    | transportError d =>
      have hshift : ∀ j, j < K → (p (k + 1 + j)).isErr = true := by
        intro j hj
        have := hfail (j + 1) (by omega)
        rwa [show k + (j + 1) = k + 1 + j by omega] at this
      have hresp : p (k + 1 + K) = .responded c := by
        rwa [show k + 1 + K = k + (K + 1) by omega]
      have hrec := ih f (k + 1) (some d) c (by omega) hshift hresp
      simp only [checkLoop, hp]
      exact ⟨hrec.1, by rw [hrec.2]⟩

/-- If every one of the `fuel + 1` attempts starting at index `k` fails, the
loop runs all of them and ends with the message built from the last attempt's
error description, which is also the final value of `last_err`. -/
lemma checkLoop_allfail (p : Nat → RawAttempt) :
    ∀ fuel k le, (∀ j, j < fuel + 1 → (p (k + j)).isErr = true) →
      checkLoop p k (fuel + 1) le =
        ⟨.error ("Error: " ++ (p (k + fuel)).desc), fuel + 1, some ((p (k + fuel)).desc)⟩ := by
  intro fuel
  induction fuel with
  | zero =>
    intro k le h
    have h0 := h 0 (by omega)
    rw [Nat.add_zero] at h0
    cases hp : p k with
    | responded c => rw [hp] at h0; simp [RawAttempt.isErr] at h0
    | transportError d =>
      rw [checkLoop_succ_err p k 0 le d hp, checkLoop_zero]
      simp [hp, RawAttempt.desc]
  | succ f ih =>
    intro k le h
    have h0 := h 0 (by omega)
    rw [Nat.add_zero] at h0
    cases hp : p k with
    | responded c => rw [hp] at h0; simp [RawAttempt.isErr] at h0
    | transportError d =>
      have hshift : ∀ j, j < f + 1 → (p (k + 1 + j)).isErr = true := by
        intro j hj
        have := h (j + 1) (by omega)
        rwa [show k + (j + 1) = k + 1 + j by omega] at this
      have hrec := ih (k + 1) (some d) hshift
      rw [checkLoop_succ_err p k (f + 1) le d hp, hrec]
      simp [show k + 1 + f = k + (f + 1) by omega]

/-- C3: for every url, timeout and maxRetries, `check_website` makes at most
`retries + 1` probe attempts (so `retries = 0` means at most one attempt); if
the prober fails exactly `K` times (`K ≤ retries`) and then responds with
status code `c`, the outcome is `Ok c` and exactly `K + 1` attempts are made;
if every attempt fails, exactly `retries + 1` attempts are made and the
outcome is a `Failure` (an `Err`). -/
theorem check_website_retry_protocol (env : HttpEnv) (url : String) (timeout retries : Nat) :
    attemptsMade env url timeout retries ≤ retries + 1 ∧
    (∀ K c, K ≤ retries → (∀ j, j < K → (env.attempt url timeout j).isErr = true) →
      env.attempt url timeout K = .responded c →
      (check_website env url timeout retries).action_status = .ok c ∧
        attemptsMade env url timeout retries = K + 1) ∧
    ((∀ j, j ≤ retries → (env.attempt url timeout j).isErr = true) →
      attemptsMade env url timeout retries = retries + 1 ∧
        isError (check_website env url timeout retries).action_status = true) := by
  refine ⟨checkLoop_attempts_le _ _ 0 none, ?_, ?_⟩
  · intro K c hK hfail hresp
    have h := checkLoop_success (env.attempt url timeout) K (retries + 1) 0 none c
      (by omega) (by intro j hj; simpa using hfail j hj) (by simpa using hresp)
    exact ⟨h.1, h.2⟩
  · intro h
    have hall := checkLoop_allfail (env.attempt url timeout) retries 0 none
      (by intro j hj; simpa using h j (by omega))
    constructor
    · show (checkLoop (env.attempt url timeout) 0 (retries + 1) none).attempts = retries + 1
      rw [hall]
    · show isError (checkLoop (env.attempt url timeout) 0 (retries + 1) none).action_status = true
      rw [hall]
      rfl

/-- Witness for C3: with a prober that fails twice ("timeout") and then
responds 200, and retries = 3, `check_website` succeeds with 200 after exactly
3 of the at most 4 allowed attempts. -/
theorem check_website_retry_protocol_witness :
    attemptsMade envFlaky "u" 5 3 ≤ 4 ∧
      (check_website envFlaky "u" 5 3).action_status = .ok 200 ∧
      attemptsMade envFlaky "u" 5 3 = 3 := by
  refine ⟨(check_website_retry_protocol envFlaky "u" 5 3).1, ?_, ?_⟩
  · exact ((check_website_retry_protocol envFlaky "u" 5 3).2.1 2 200 (by omega)
      (by intro j hj; interval_cases j <;> rfl) rfl).1
  · exact ((check_website_retry_protocol envFlaky "u" 5 3).2.1 2 200 (by omega)
      (by intro j hj; interval_cases j <;> rfl) rfl).2

/-- C7: whenever some attempt within the retry budget receives an HTTP
response (all earlier attempts having failed at transport level),
`check_website` reports `Ok` with exactly that response's status code,
whatever the code is - the code value is never inspected, so 200, 404 and 500
alike yield Success and never Failure. -/
theorem check_website_any_response_is_success (env : HttpEnv) (url : String)
    (timeout retries : Nat) :
    ∀ K c, K ≤ retries → (∀ j, j < K → (env.attempt url timeout j).isErr = true) →
      env.attempt url timeout K = .responded c →
      (check_website env url timeout retries).action_status = .ok c := by
  intro K c hK hfail hresp
  exact (checkLoop_success (env.attempt url timeout) K (retries + 1) 0 none c
    (by omega) (by intro j hj; simpa using hfail j hj) (by simpa using hresp)).1

/-- Witness for C7: an immediate 404 response yields `Ok 404`, not a failure. -/
theorem check_website_any_response_is_success_witness :
    (check_website (envOk 404) "u" 5 3).action_status = .ok 404 :=
  check_website_any_response_is_success (envOk 404) "u" 5 3 0 404 (by omega)
    (fun j hj => absurd hj (Nat.not_lt_zero j)) rfl

/-- C4 counterexample: with a prober whose every attempt fails with
description "connection refused" and retries = 0, the recorded Failure message
is "Error: connection refused" - the last attempt's error description with the
"Error: " prefix prepended by `format!("Error: {}", ...)` - and therefore NOT
equal to the bare error description itself, contrary to the claim as stated. -/
theorem check_website_failure_message_cex :
    msgOf (check_website envDead "u" 5 0).action_status = some "Error: connection refused" ∧
    (envDead.attempt "u" 5 0).desc = "connection refused" ∧
    msgOf (check_website envDead "u" 5 0).action_status ≠ some ((envDead.attempt "u" 5 0).desc) := by
  refine ⟨rfl, rfl, ?_⟩
  decide

/-- C4 amended: if every probe attempt fails at the transport level, the
outcome is a Failure whose message is the last (most recent) attempt's error
description prefixed with "Error: ". -/
theorem check_website_failure_message (env : HttpEnv) (url : String) (timeout retries : Nat)
    (h : ∀ j, j ≤ retries → (env.attempt url timeout j).isErr = true) :
    (check_website env url timeout retries).action_status =
      .error ("Error: " ++ (env.attempt url timeout retries).desc) := by
  have hall := checkLoop_allfail (env.attempt url timeout) retries 0 none
    (by intro j hj; simpa using h j (by omega))
  show (checkLoop (env.attempt url timeout) 0 (retries + 1) none).action_status = _
  rw [hall]
  simp

/-- Witness for C4 (amended): every attempt refused, retries = 1: the message
is "Error: connection refused". -/
theorem check_website_failure_message_witness :
    (check_website envDead "u" 5 1).action_status = .error "Error: connection refused" :=
  check_website_failure_message envDead "u" 5 1 (fun _ _ => rfl)

/-- C9: when every attempt fails, the loop has run `retries + 1 ≥ 1` times
(the range `0..=retries` is never empty), `last_err` is `Some` of the last
attempt's error description at the Failure construction, and hence the
"unknown error" fallback branch is not taken: the message derives from an
actual attempt's error. -/
theorem check_website_lastErr_always_set (env : HttpEnv) (url : String) (timeout retries : Nat)
    (h : ∀ j, j ≤ retries → (env.attempt url timeout j).isErr = true) :
    (checkLoop (env.attempt url timeout) 0 (retries + 1) none).lastErr =
        some ((env.attempt url timeout retries).desc) ∧
    (checkLoop (env.attempt url timeout) 0 (retries + 1) none).lastErr ≠ none ∧
    0 < attemptsMade env url timeout retries := by
  have hall := checkLoop_allfail (env.attempt url timeout) retries 0 none
    (by intro j hj; simpa using h j (by omega))
  refine ⟨?_, ?_, ?_⟩
  · rw [hall]; simp
  · rw [hall]; simp
  · show 0 < (checkLoop (env.attempt url timeout) 0 (retries + 1) none).attempts
    rw [hall]
    exact Nat.succ_pos retries

/-- Witness for C9: all attempts refused with retries = 0: `last_err` holds
"connection refused", is not `None`, and at least one attempt was made. -/
theorem check_website_lastErr_always_set_witness :
    (checkLoop (envDead.attempt "u" 5) 0 1 none).lastErr = some "connection refused" ∧
    (checkLoop (envDead.attempt "u" 5) 0 1 none).lastErr ≠ none ∧
    0 < attemptsMade envDead "u" 5 0 := by
  have h := check_website_lastErr_always_set envDead "u" 5 0 (fun _ _ => rfl)
  exact ⟨h.1, h.2.1, h.2.2⟩

end SiteChecker

namespace SiteChecker

-- Supporting lemmas about the strided partition.

/-- Membership in a step range with enough fuel: exactly the indices
`j + m * w` below `n`. -/
lemma mem_stepList {w : Nat} (hw : 0 < w) :
    ∀ fuel j n k, n ≤ j + fuel →
      (k ∈ stepList w fuel j n ↔ (∃ m, k = j + m * w) ∧ k < n) := by
  intro fuel
  induction fuel with
  | zero =>
    intro j n k hle
    simp only [stepList, List.not_mem_nil, false_iff]
    rintro ⟨⟨m, rfl⟩, hk⟩
    have : j ≤ j + m * w := Nat.le_add_right j (m * w)
    omega
  | succ f ih =>
    intro j n k hle
    by_cases hj : j < n
    · rw [stepList, if_pos hj, List.mem_cons, ih (j + w) n k (by omega)]
      constructor
      · rintro (rfl | ⟨⟨m, rfl⟩, hk⟩)
        · exact ⟨⟨0, by simp⟩, hj⟩
        · exact ⟨⟨m + 1, by ring⟩, hk⟩
      · rintro ⟨⟨m, rfl⟩, hk⟩
        cases m with
        | zero => left; simp
        | succ m => right; exact ⟨⟨m, by ring⟩, hk⟩
    · rw [stepList, if_neg hj]
      simp only [List.not_mem_nil, false_iff]
      rintro ⟨⟨m, rfl⟩, hk⟩
      have : j ≤ j + m * w := Nat.le_add_right j (m * w)
      omega

/-- Worker `i`'s index list is exactly the strided set
`{ i, i+w, i+2w, ... } ∩ [0, n)`. -/
lemma mem_workerIndices {w : Nat} (hw : 0 < w) (i n k : Nat) :
    k ∈ workerIndices i n w ↔ (∃ m, k = i + m * w) ∧ k < n :=
  mem_stepList hw n i n k (Nat.le_add_left n i)

/-- For `i < w`, worker `i`'s index list is exactly the residue class of `i`
modulo `w` below `n`. -/
lemma mem_workerIndices_mod {w : Nat} (hw : 0 < w) {i : Nat} (hi : i < w) (n k : Nat) :
    k ∈ workerIndices i n w ↔ k % w = i ∧ k < n := by
  rw [mem_workerIndices hw]
  constructor
  · rintro ⟨⟨m, rfl⟩, hk⟩
    refine ⟨?_, hk⟩
    rw [Nat.add_mul_mod_self_right]
    exact Nat.mod_eq_of_lt hi
  · rintro ⟨hmod, hk⟩
    refine ⟨⟨k / w, ?_⟩, hk⟩
    rw [← hmod]
    exact (Nat.mod_add_div' k w).symm

/-- Every member of a step range is at least the start index. -/
lemma stepList_lb {w : Nat} :
    ∀ fuel j n k, k ∈ stepList w fuel j n → j ≤ k := by
  intro fuel
  induction fuel with
  | zero => intro j n k h; simp [stepList] at h
  | succ f ih =>
    intro j n k h
    by_cases hj : j < n
    · rw [stepList, if_pos hj, List.mem_cons] at h
      rcases h with rfl | h
      · exact Nat.le_refl k
      · have := ih (j + w) n k h
        omega
    · rw [stepList, if_neg hj] at h
      simp at h

/-- A step range with positive step never repeats an index. -/
lemma stepList_nodup {w : Nat} (hw : 0 < w) :
    ∀ fuel j n, (stepList w fuel j n).Nodup := by
  intro fuel
  induction fuel with
  | zero => intro j n; simp [stepList]
  | succ f ih =>
    intro j n
    by_cases hj : j < n
    · rw [stepList, if_pos hj, List.nodup_cons]
      refine ⟨fun hmem => ?_, ih (j + w) n⟩
      have := stepList_lb f (j + w) n j hmem
      omega
    · rw [stepList, if_neg hj]
      exact List.nodup_nil

/-- Two distinct workers (both below the worker count) share no index. -/
lemma workerIndices_disjoint {w : Nat} (hw : 0 < w) {a b : Nat} (ha : a < w) (hb : b < w)
    (hne : a ≠ b) (n : Nat) : ∀ k, k ∈ workerIndices a n w → k ∉ workerIndices b n w := by
  intro k hka hkb
  have h1 := ((mem_workerIndices_mod hw ha n k).1 hka).1
  have h2 := ((mem_workerIndices_mod hw hb n k).1 hkb).1
  exact hne (h1 ▸ h2 ▸ rfl)

/-- The `w` strided index lists together are a permutation of `[0, n)`:
pairwise disjoint, no duplicates, and their union is the full index range. -/
lemma partition_perm (n w : Nat) (hw : 0 < w) :
    ((List.range w).flatMap fun i => workerIndices i n w).Perm (List.range n) := by
  have hnodup : ((List.range w).flatMap fun i => workerIndices i n w).Nodup := by
    rw [List.nodup_flatMap]
    constructor
    · intro i _
      exact stepList_nodup hw n i n
    · refine List.Pairwise.imp_of_mem ?_ (List.pairwise_lt_range w)
      intro a b hma hmb hab
      have ha := List.mem_range.1 hma
      have hb := List.mem_range.1 hmb
      intro k hka hkb
      exact workerIndices_disjoint hw ha hb (Nat.ne_of_lt hab) n k hka hkb
  refine (List.perm_ext_iff_of_nodup hnodup (List.nodup_range n)).mpr ?_
  intro k
  simp only [List.mem_flatMap, List.mem_range]
  constructor
  · rintro ⟨i, hi, hk⟩
    exact ((mem_workerIndices_mod hw hi n k).1 hk).2
  · intro hk
    exact ⟨k % w, Nat.mod_lt k hw, (mem_workerIndices_mod hw (Nat.mod_lt k hw) n k).2 ⟨rfl, hk⟩⟩

/-- C2: for every `n ≥ 0` and `w ≥ 1`, worker `i` (`i < w`) is assigned
exactly the strided index set `{ i, i+w, i+2w, ... } ∩ [0, n)`; the `w` index
lists are pairwise disjoint and their union is `[0, n)` (as a permutation of
`List.range n`, i.e. each index exactly once); in particular for `n = 5`,
`w = 2` the assignments are `[0, 2, 4]` and `[1, 3]`. -/
theorem dispatcher_strided_partition (n w : Nat) (hw : 0 < w) :
    (∀ i k, i < w → (k ∈ workerIndices i n w ↔ (∃ m, k = i + m * w) ∧ k < n)) ∧
    ((List.range w).Pairwise fun a b => ∀ k, k ∈ workerIndices a n w →
      k ∉ workerIndices b n w) ∧
    ((List.range w).flatMap fun i => workerIndices i n w).Perm (List.range n) ∧
    (workerIndices 0 5 2 = [0, 2, 4] ∧ workerIndices 1 5 2 = [1, 3]) := by
  refine ⟨fun i k _ => mem_workerIndices hw i n k, ?_, partition_perm n w hw, by decide, by decide⟩
  refine List.Pairwise.imp_of_mem ?_ (List.pairwise_lt_range w)
  intro a b hma hmb hab
  exact workerIndices_disjoint hw (List.mem_range.1 hma) (List.mem_range.1 hmb)
    (Nat.ne_of_lt hab) n

/-- Witness for C2 at `n = 5`, `w = 2`: the two assignments are `[0, 2, 4]`
and `[1, 3]` and together they are a permutation of `[0, 5)`. -/
theorem dispatcher_strided_partition_witness :
    ((List.range 2).flatMap fun i => workerIndices i 5 2).Perm (List.range 5) ∧
    workerIndices 0 5 2 = [0, 2, 4] ∧ workerIndices 1 5 2 = [1, 3] :=
  ⟨(dispatcher_strided_partition 5 2 (by decide)).2.2.1,
    (dispatcher_strided_partition 5 2 (by decide)).2.2.2⟩

/-- Reading back a list by positions yields the list itself. -/
lemma map_getD_range (l : List String) :
    (List.range l.length).map (fun j => l.getD j "") = l := by
  induction l with
  | nil => simp
  | cons a t ih =>
    rw [List.length_cons, List.range_succ_eq_map, List.map_cons, List.map_map]
    have hcomp : ((fun j => (a :: t).getD j "") ∘ Nat.succ) = fun j => t.getD j "" := by
      funext j
      simp [List.getD_cons_succ]
    rw [hcomp, ih]
    simp

/-- C1: for every target list and every worker count `w ≥ 1`, the records that
reach the collector number exactly `urls.length` - one per target, no
duplicates, no omissions - and their url fields are a permutation (multiset
equality) of the input target list. -/
theorem run_preserves_targets (env : HttpEnv) (urls : List String) (w timeout retries : Nat)
    (hw : 0 < w) :
    (runStatuses env urls w timeout retries).length = urls.length ∧
    ((runStatuses env urls w timeout retries).map WebsiteStatus.url).Perm urls := by
  have hperm : ((runStatuses env urls w timeout retries).map WebsiteStatus.url).Perm urls := by
    rw [runStatuses, List.map_flatMap]
    have hfun : (fun i => List.map WebsiteStatus.url
        ((workerIndices i urls.length w).map
          (fun j => check_website env (urls.getD j "") timeout retries))) =
        fun i => (workerIndices i urls.length w).map (fun j => urls.getD j "") := by
      funext i
      rw [List.map_map]
      rfl
    rw [hfun, ← List.map_flatMap]
    exact ((partition_perm urls.length w hw).map _).trans (by rw [map_getD_range])
  refine ⟨?_, hperm⟩
  have := hperm.length_eq
  simpa using this

/-- Witness for C1: three targets, two workers - worker 0 checks indices 0 and
2, worker 1 checks index 1; the three collected urls are a permutation of the
input list. -/
theorem run_preserves_targets_witness :
    (runStatuses (envOk 200) ["a", "b", "c"] 2 5 0).length = 3 ∧
    ((runStatuses (envOk 200) ["a", "b", "c"] 2 5 0).map WebsiteStatus.url).Perm
      ["a", "b", "c"] :=
  run_preserves_targets (envOk 200) ["a", "b", "c"] 2 5 0 (by decide)

end SiteChecker

namespace SiteChecker

-- Supporting lemmas about argument parsing.

/-- The parser loop rejects exactly when the spec-side malformedness scan
says so, whatever the intermediate state. -/
lemma parseArgsLoop_isError_eq (pn : String → Option Nat) (toks : List String)
    (file : Option String) (urls : List String) (w t r : Nat) :
    isError (parseArgsLoop pn toks file urls w t r) =
      specScanMalformed pn toks file.isSome (!urls.isEmpty) := by
  induction toks, file, urls, w, t, r using parseArgsLoop.induct pn
  case case2 file urls w t r h =>
    rcases file with _ | f <;> rcases urls with _ | ⟨u, us⟩ <;>
      simp_all [parseArgsLoop, specScanMalformed, isError]
  case case14 arg rest file urls w t r h1 h2 h3 h4 h5 =>
    rw [parseArgsLoop.eq_def, specScanMalformed.eq_def]
    simp [isError, h1, h2, h3, h4, h5]
  case case15 arg rest file urls w t r h1 h2 h3 h4 h5 ih =>
    rw [parseArgsLoop.eq_def, specScanMalformed.eq_def]
    have he : (urls ++ [arg]).isEmpty = false := by cases urls <;> rfl
    simp_all [he]
  all_goals simp_all [parseArgsLoop, specScanMalformed, isError]

/-- On a successful parse, the config's url list is the accumulated urls so
far followed by the positional arguments of the remaining tokens, in order. -/
lemma parseArgsLoop_urls_eq (pn : String → Option Nat) (toks : List String)
    (file : Option String) (urls : List String) (w t r : Nat) (cfg : Config) :
    parseArgsLoop pn toks file urls w t r = .ok cfg →
    cfg.urls = urls ++ positionalArgs toks := by
  induction toks, file, urls, w, t, r using parseArgsLoop.induct pn
  case case2 file urls w t r h =>
    intro hok
    have hc : (file.isNone && urls.isEmpty) = false := by
      rcases file with _ | f
      · rcases urls with _ | ⟨u, us⟩
        · simp_all
        · rfl
      · rfl
    simp only [parseArgsLoop, hc, Bool.false_eq_true, if_false, Except.ok.injEq] at hok
    subst hok
    simp [positionalArgs]
  case case14 arg rest file urls w t r h1 h2 h3 h4 h5 =>
    rw [parseArgsLoop.eq_def]
    simp [h1, h2, h3, h4, h5]
  case case15 arg rest file urls w t r h1 h2 h3 h4 h5 ih =>
    rw [parseArgsLoop.eq_def, positionalArgs.eq_def]
    intro hok
    have := ih (by simpa [h1, h2, h3, h4, h5] using hok)
    simp_all [h1, h2, h3, h4, h5]
  all_goals simp_all [parseArgsLoop, positionalArgs]

/-- C8: `parse_args` returns an error exactly when the configuration is
malformed in one of the spec's senses (flag without a following value,
unparseable numeric flag value, unknown `--` flag, or neither `--file` nor any
positional URL), as captured by the spec-side scan `specMalformedConfig`; and
in exactly those cases the whole run aborts at startup (`runProgram` is an
error: no worker is spawned and no output is produced). -/
theorem parse_args_error_iff_malformed (pn : String → Option Nat) (dw : Nat)
    (readFile : String → List String) (env : HttpEnv) (args : List String) :
    isError (parse_args pn dw args) = specMalformedConfig pn args ∧
    isError (runProgram pn dw readFile env args) = specMalformedConfig pn args := by
  have h := parseArgsLoop_isError_eq pn args.tail none [] dw 5 3
  have h1 : isError (parse_args pn dw args) = specMalformedConfig pn args := by
    simpa [parse_args, specMalformedConfig] using h
  refine ⟨h1, ?_⟩
  rw [← h1]
  cases hp : parse_args pn dw args with
  | error e => simp [runProgram, hp, isError]
  | ok cfg => simp [runProgram, hp, isError]

/-- C10: when both `--file` and positional URLs are given, the checked target
list is the positional URLs in command-line order followed by the file's URLs
in file order - both sources contribute, neither overrides the other. -/
theorem main_targets_concatenate (pn : String → Option Nat) (dw : Nat)
    (readFile : String → List String) (args : List String) (cfg : Config) (path : String)
    (hok : parse_args pn dw args = .ok cfg) (hfile : cfg.file = some path) :
    mainUrls readFile cfg = positionalArgs args.tail ++ readFile path := by
  have hu := parseArgsLoop_urls_eq pn args.tail none [] dw 5 3 cfg hok
  simp only [List.nil_append] at hu
  simp [mainUrls, hfile, hu]

/-- Witness for C10: `prog http://a --file list.txt http://b` with a file
containing http://c and http://d checks a, b (command-line order) then c, d
(file order). -/
theorem main_targets_concatenate_witness :
    mainUrls rfMixed cfgMixed = positionalArgs argsMixed.tail ++ rfMixed "list.txt" ∧
    mainUrls rfMixed cfgMixed = ["http://a", "http://b", "http://c", "http://d"] :=
  ⟨main_targets_concatenate pnNone 4 rfMixed argsMixed cfgMixed "list.txt" rfl rfl,
    by decide⟩

end SiteChecker

namespace SiteChecker

/-- C5 evaluation at the failing input: the `status` field of a Success
element is the numeric code rendered as text, and `response_time` is the
elapsed time truncated to whole seconds, as claimed - but for a Failure
element the serializer's `map_or` writes its default `"unknown error"` for
EVERY failure message, discarding the message `check_website` stored
(src/main.rs line 168), so the claimed "status equals that failure's error
message" does not hold. -/
theorem status_json_failure_field_is_unknown_error :
    (∀ msg : String, statusField (.error msg) = "unknown error") ∧
    (∀ code : Nat, statusField (.ok code) = toString code) ∧
    statusLine rfcStub ⟨"http://a", .error "Error: connection refused", 1999999999, 0⟩ =
      "\x7b\"url\": \"http://a\", \"status\": \"unknown error\", \"response_time\": \"1\", \"timestamp\": \"T\"\x7d" ∧
    statusLine rfcStub ⟨"http://b", .ok 404, 2500000000, 0⟩ =
      "\x7b\"url\": \"http://b\", \"status\": \"404\", \"response_time\": \"2\", \"timestamp\": \"T\"\x7d" :=
  ⟨fun _ => rfl, fun _ => rfl, rfl, rfl⟩

/-- C6 counterexample: with a configured worker count of 0 the producer side
of the channel DOES close (main's own `tx` is dropped right after the empty
spawn loop, and there are no worker clones), so the collector does not block:
the run terminates with an empty collection - `some []`, not the `none` that
would model blocking forever. -/
theorem zero_workers_channel_closes_cex :
    liveSendersAfterRun 0 = 0 ∧
    collectResults envDead ["http://a"] 0 5 3 = some [] ∧
    collectResults envDead ["http://a"] 0 5 3 ≠ none :=
  ⟨rfl, rfl, fun h => nomatch h⟩

/-- C6 amended: with worker count 0 no worker is spawned and no target is
checked, but because `drop(tx)` releases main's sender right after the spawn
loop the channel's producer side closes immediately and the collector
terminates at once with an empty ResultCollection; status.json then contains
just `[]`. The defect at W = 0 is silent loss of all N targets, not a
collector blocked forever. -/
theorem zero_workers_run_completes_empty (env : HttpEnv) (urls : List String)
    (timeout retries : Nat) (rfc : Nat → String) :
    runStatuses env urls 0 timeout retries = [] ∧
    collectResults env urls 0 timeout retries = some [] ∧
    finalOutput rfc [] = "[]" :=
  ⟨rfl, rfl, rfl⟩

end SiteChecker
